import Mathlib

/-!
Verification of the indicator-transform-and-signal-evaluation core of
`src/run.py` (functions `get_fred_data` and
`calculate_recession_probability`), shallowly embedded in Lean.

Conventions of the embedding:
* pandas Series values are IEEE doubles; they are modelled by `PVal`:
  an exact rational for a finite float, plus `pinf`, `ninf` and `nan`.
  The claims under study are structural (which value is produced, which
  comparison fires), not about binary rounding, so finite floats are
  represented exactly by rationals.
* A pandas `DatetimeIndex` at month-start frequency is modelled by
  consecutive natural numbers (month indices); a raw observation date is
  a (month, day) pair.
* Python dictionaries (`latest_values`, `thresholds`) are modelled as
  functions into `Option`; a `KeyError` raised by the lookup
  `thresholds[th_key]` is modelled by `Except.error ()`.
-/

namespace EconPulse

/-- A value flowing through the pandas pipeline of `run.py`: a finite
float (represented exactly by a rational), positive infinity, negative
infinity, or `NaN`. -/
inductive PVal where
  | num (q : ℚ)
  | pinf
  | ninf
  | nan
deriving DecidableEq, Repr

/-- IEEE subtraction on `PVal`, as performed by the pandas `-` operator:
`NaN` propagates, infinity minus a finite value stays infinite, and
opposing infinities give `NaN`. -/
def psub : PVal → PVal → PVal
  | .num a, .num b => .num (a - b)
  | .num _, .pinf => .ninf
  | .num _, .ninf => .pinf
  | .pinf, .num _ => .pinf
  | .ninf, .num _ => .ninf
  | .pinf, .ninf => .pinf
  | .ninf, .pinf => .ninf
  | _, _ => .nan

/-- IEEE division on `PVal` as performed by the pandas `/` operator:
`NaN` propagates, and a zero denominator under a finite numerator yields
`pinf` or `ninf` by the sign of the numerator (`NaN` for zero over
zero) — it does not raise. (The rationals have no signed zero; the
series built by `run.py` never produce a float negative zero
denominator, so the unsigned model is faithful.) -/
def pdiv : PVal → PVal → PVal
  | .num a, .num b =>
    if b = 0 then (if 0 < a then .pinf else if a < 0 then .ninf else .nan)
    else .num (a / b)
  | .num _, .pinf => .num 0
  | .num _, .ninf => .num 0
  | .pinf, .num b => if b < 0 then .ninf else .pinf
  | .ninf, .num b => if b < 0 then .pinf else .ninf
  | _, _ => .nan

/-- IEEE multiplication on `PVal`, as performed by the pandas `*`
operator: `NaN` propagates, infinity times zero is `NaN`, otherwise
signs multiply. -/
def pmul : PVal → PVal → PVal
  | .num a, .num b => .num (a * b)
  | .num a, .pinf => if 0 < a then .pinf else if a < 0 then .ninf else .nan
  | .num a, .ninf => if 0 < a then .ninf else if a < 0 then .pinf else .nan
  | .pinf, .num b => if 0 < b then .pinf else if b < 0 then .ninf else .nan
  | .ninf, .num b => if 0 < b then .ninf else if b < 0 then .pinf else .nan
  | .pinf, .pinf => .pinf
  | .ninf, .ninf => .pinf
  | .pinf, .ninf => .ninf
  | .ninf, .pinf => .ninf
  | _, _ => .nan

/-- IEEE less-than on `PVal`, as used by the Python comparison
`val < thresholds[th_key]` at line 62 of `run.py`: any comparison
involving `NaN` is false. -/
def plt : PVal → PVal → Bool
  | .num a, .num b => decide (a < b)
  | .num _, .pinf => true
  | .ninf, .num _ => true
  | .ninf, .pinf => true
  | _, _ => false

/-- IEEE greater-than on `PVal`, as used by the Python comparison
`val > thresholds[th_key]` at line 62 of `run.py`. -/
def pgt (a b : PVal) : Bool := plt b a

/-- One raw observation of a FRED series, as returned by
`fred.get_series`: a date (split into calendar month index and
within-month day) and a value that may be missing (`none` models the
`NaN` entries FRED returns for missing observations). -/
structure Obs where
  month : ℕ
  day : ℕ
  value : Option ℚ
deriving DecidableEq, Repr

/-- The value that `series.resample(MS).last()` assigns to month `m`:
the last (in series order, which is chronological for the FRED API) non
missing observation falling in calendar month `m`, or `none` if that
month has no valid observation. The pandas resampler method `last`
skips null entries. -/
def lastValidInMonth (obs : List Obs) (m : ℕ) : Option ℚ :=
  obs.foldl
    (fun acc o =>
      if o.month = m then
        match o.value with
        | some v => some v
        | none => acc
      else acc)
    none

/-- The month-start grid the pandas resampler bins onto: every month
from `m0` to `m1` inclusive. -/
def monthsGrid (m0 m1 : ℕ) : List ℕ :=
  List.range' m0 (m1 + 1 - m0)

/-- The resampled series over the grid from `m0` to `m1`: one slot per
calendar month, holding the last valid observation of that month. -/
def resampled (obs : List Obs) (m0 m1 : ℕ) : List (Option ℚ) :=
  (monthsGrid m0 m1).map (lastValidInMonth obs)

/-- The pandas `ffill` method: each missing slot takes the most recent
earlier valid value (`prev` is the value carried in from before the
list; pandas starts with nothing, i.e. `none`). Note there is NO gap
bound: line 34 of `run.py` calls `ffill` with no limit argument. -/
def ffillFrom : Option ℚ → List (Option ℚ) → List (Option ℚ)
  | _, [] => []
  | prev, x :: xs =>
    match x with
    | some v => some v :: ffillFrom (some v) xs
    | none => prev :: ffillFrom prev xs

/-- The aligned monthly series: resample to month starts taking the
last observation of each month, then forward-fill — line 34 of
`run.py`. -/
def alignedSeries (obs : List Obs) (m0 m1 : ℕ) : List (Option ℚ) :=
  ffillFrom none (resampled obs m0 m1)

/-- Embed an aligned slot into `PVal` (`none`, i.e. a month left empty
by resampling and forward-filling, is float `NaN` in the pandas
series). -/
def toPVal : Option ℚ → PVal
  | none => .nan
  | some q => .num q

/-- First month covered by the resampling grid: the minimum observation
month (pandas bins from the floor of the first index entry). -/
def firstMonth : List Obs → ℕ
  | [] => 0
  | o :: os => os.foldl (fun a x => Nat.min a x.month) o.month

/-- Last month covered by the resampling grid: the maximum observation
month. -/
def lastMonth : List Obs → ℕ
  | [] => 0
  | o :: os => os.foldl (fun a x => Nat.max a x.month) o.month

/-- The aligned level series of one indicator as a list of floats. -/
def alignedPVals (obs : List Obs) : List PVal :=
  (alignedSeries obs (firstMonth obs) (lastMonth obs)).map toPVal

/-- The Python substring test `"Curve" in label` (line 36 of `run.py`),
modelled via `String.splitOn`: the label contains the word iff
splitting on it produces more than one piece. -/
def isCurve (label : String) : Bool :=
  (label.splitOn "Curve").length > 1

/-- The pandas shift by 12 at position `t`: `NaN` for the first 12
slots, else the level 12 months earlier. -/
def shiftAt (lvl : List PVal) (t : ℕ) : PVal :=
  if t < 12 then .nan else lvl.getD (t - 12) .nan

/-- The YoY value at position `t` — lines 36 to 39 of `run.py`: the
difference `series - series.shift(12)` when the label contains the word
Curve, else the ratio `(series / series.shift(12) - 1) * 100`. -/
def yoyAt (lvl : List PVal) (curve : Bool) (t : ℕ) : PVal :=
  if curve then psub (lvl.getD t .nan) (shiftAt lvl t)
  else pmul (psub (pdiv (lvl.getD t .nan) (shiftAt lvl t)) (.num 1)) (.num 100)

/-- The full YoY series of an aligned level series. -/
def yoyList (lvl : List PVal) (curve : Bool) : List PVal :=
  (List.range lvl.length).map (yoyAt lvl curve)

/-- The last element of a series (`iloc[-1]` in `run.py`, line 43).
`run.py` only evaluates it on nonempty series — an empty series raises
inside the per-indicator `try`, which skips the indicator — so the
`nan` default is never reached on the paths modelled here. -/
def lastP (l : List PVal) : PVal := l.getLastD .nan

/-- One record of the `latest_values` dict built at line 43 of
`run.py`: the latest level and the latest YoY value. -/
structure Entry where
  value : PVal
  yoy : PVal
deriving DecidableEq, Repr

/-- Build the `latest_values` record for one indicator from its raw
observations (lines 34 to 43 of `run.py`). -/
def mkEntry (label : String) (obs : List Obs) : Entry :=
  let lvl := alignedPVals obs
  ⟨lastP lvl, lastP (yoyList lvl (isCurve label))⟩

/-- The fetch outcome of one indicator in the `get_fred_data` loop:
`none` models `fred.get_series` raising (network or provider failure),
which the `except` clause at lines 44 to 45 turns into skipping the
indicator. -/
structure FetchItem where
  label : String
  result : Option (List Obs)
deriving Repr

/-- The `latest_values` dict built by `get_fred_data` (lines 30 to 46
of `run.py`): indicators are processed in order; a failed fetch — and
an empty series, whose last-element access raises `IndexError` into the
same `except` — leaves the dict untouched and the loop continues. -/
def get_fred_data (items : List FetchItem) : String → Option Entry :=
  items.foldl
    (fun acc it =>
      match it.result with
      | none => acc
      | some [] => acc
      | some obs => fun x => if x = it.label then some (mkEntry it.label obs) else acc x)
    (fun _ => none)

/-- Which field of a `latest_values` record a rule reads: the string
key `value` or `yoy` in the rule tuples at lines 51 to 56 of
`run.py`. -/
inductive MetricKey where
  | value
  | yoy
deriving DecidableEq, Repr

/-- The comparator of a rule: the strings `<` and `>` in the rule
tuples at lines 51 to 56 of `run.py`. -/
inductive Cmp where
  | lt
  | gt
deriving DecidableEq, Repr

/-- One row of the `checks` table of `calculate_recession_probability`:
label, metric key, threshold key, comparator. -/
structure Check where
  label : String
  key : MetricKey
  thKey : String
  op : Cmp
deriving DecidableEq, Repr

/-- The fixed rule table at lines 50 to 57 of `run.py`. -/
def checks : List Check :=
  [⟨"非農業部門雇用者数 (NFP)", .yoy, "nfp_yoy_min", .lt⟩,
   ⟨"失業率", .yoy, "unrate_yoy_max", .gt⟩,
   ⟨"ミシガン大学消費者態度指数", .value, "michigan_val_min", .lt⟩,
   ⟨"小売売上高", .yoy, "retail_yoy_min", .lt⟩,
   ⟨"米10年-2年金利差 (Yield Curve)", .value, "yield_curve_max", .lt⟩,
   ⟨"鉱工業生産指数 (INDPRO)", .yoy, "indpro_yoy_min", .lt⟩]

/-- Read the metric of a `latest_values` record selected by a rule
(line 61 of `run.py`). -/
def getMetric (e : Entry) : MetricKey → PVal
  | .value => e.value
  | .yoy => e.yoy

/-- One iteration of the loop at lines 58 to 63 of `run.py`, returning
the increments to `(signals, total)`: a label absent from
`latest_values` contributes nothing (the rule is skipped); a present
label first increments `total`, then looks up the threshold — a missing
threshold key raises `KeyError`, modelled as `Except.error ()`. -/
def evalCheck (lv : String → Option Entry) (th : String → Option ℚ) (c : Check) :
    Except Unit (ℕ × ℕ) :=
  match lv c.label with
  | none => .ok (0, 0)
  | some e =>
    match th c.thKey with
    | none => .error ()
    | some b =>
      let v := getMetric e c.key
      let trig := match c.op with
        | .lt => plt v (.num b)
        | .gt => pgt v (.num b)
      .ok (if trig then 1 else 0, 1)

/-- The whole loop at lines 58 to 63 of `run.py`, accumulating
`(signals, total)` over a rule list; the first `KeyError` aborts, as in
Python. -/
def runChecks (lv : String → Option Entry) (th : String → Option ℚ) :
    List Check → Except Unit (ℕ × ℕ)
  | [] => .ok (0, 0)
  | c :: cs =>
    match evalCheck lv th c with
    | .error e => .error e
    | .ok (s, t) =>
      match runChecks lv th cs with
      | .error e => .error e
      | .ok (s', t') => .ok (s + s', t + t')

/-- Line 64 of `run.py`: `int((signals / total) * 100)` when total is
positive, else 0, packaged with `signals` and `total`. Python truncates
the float product with `int`; for every reachable pair (signals at most
total, total at most 6 since the rule table has 6 rows) the double
rounding of the quotient and of the product lands `int` exactly on the
integer floor of the exact quotient, so the model uses exact natural
floor division. -/
def scoreOf (st : ℕ × ℕ) : ℕ × ℕ × ℕ :=
  (if st.2 > 0 then st.1 * 100 / st.2 else 0, st.1, st.2)

/-- `calculate_recession_probability` generalised to an arbitrary rule
list (used to state that the rule order does not matter). -/
def calcOnList (lv : String → Option Entry) (th : String → Option ℚ)
    (cs : List Check) : Except Unit (ℕ × ℕ × ℕ) :=
  (runChecks lv th cs).map scoreOf

/-- `calculate_recession_probability(latest_values, thresholds)` —
lines 48 to 64 of `run.py`: returns the triple (percentage, signals,
total), or the `KeyError` (modelled as `Except.error ()`) that Python
would raise out of the function. -/
def calculate_recession_probability (lv : String → Option Entry)
    (th : String → Option ℚ) : Except Unit (ℕ × ℕ × ℕ) :=
  calcOnList lv th checks

/-- Severity tier of the composite score. -/
inductive Tier where
  | observe
  | warning
  | critical
deriving DecidableEq, Repr

/-- Modelled from the spec: the severity tier mapping (percentage at
least 80 is critical; between 50 and 79 is warning; below 50 is
observe). No tier computation appears in `src/run.py` — the repository
only prints the raw percentage — so this definition follows the wording
of section 4.4 of the spec. -/
def tierOf (p : ℕ) : Tier :=
  if p ≥ 80 then .critical else if p ≥ 50 then .warning else .observe

-- Concrete results are compared through `Except` values.
deriving instance DecidableEq for Except

/-- The signals component of a loop result (0 on error). -/
def okSignals : Except Unit (ℕ × ℕ) → ℕ
  | .ok (s, _) => s
  | .error _ => 0

/-- The total component of a loop result (0 on error). -/
def okTotal : Except Unit (ℕ × ℕ) → ℕ
  | .ok (_, t) => t
  | .error _ => 0

/-- A thresholds dict carrying all six keys of the rule table, with
integer-valued bounds. -/
def thAll : String → Option ℚ := fun k =>
  if k = "nfp_yoy_min" then some 5
  else if k = "unrate_yoy_max" then some 5
  else if k = "michigan_val_min" then some 60
  else if k = "retail_yoy_min" then some 0
  else if k = "yield_curve_max" then some 0
  else if k = "indpro_yoy_min" then some 0
  else none

/-- A `latest_values` dict in which all six indicators are present and
exactly the NFP rule triggers (its YoY value 3 is below the bound 5 of
`thAll`; every other rule compares false). -/
def lvSix : String → Option Entry := fun x =>
  if x = "非農業部門雇用者数 (NFP)" then some ⟨.num 150000, .num 3⟩
  else if x = "失業率" then some ⟨.num 4, .num 0⟩
  else if x = "ミシガン大学消費者態度指数" then some ⟨.num 100, .num 1⟩
  else if x = "小売売上高" then some ⟨.num 700, .num 5⟩
  else if x = "米10年-2年金利差 (Yield Curve)" then some ⟨.num 1, .num 1⟩
  else if x = "鉱工業生産指数 (INDPRO)" then some ⟨.num 102, .num 5⟩
  else none

/-- A 13-month aligned level series with constant value 2 and final
value 3, for exercising the YoY formulas at position 12. -/
def lvlW : List PVal := List.replicate 12 (.num 2) ++ [.num 3]

/-- An aligned level series of exactly 12 months. -/
def lvl12 : List PVal := List.replicate 12 (.num 1)

/-- A `latest_values` dict whose only indicator is the unemployment
rate, with its YoY entry taken from the 12-month series `lvl12` through
the code path of `run.py` (it is `NaN`). -/
def lvTwelve : String → Option Entry := fun x =>
  if x = "失業率" then some ⟨.num 4, lastP (yoyList lvl12 false)⟩ else none

/-- A `latest_values` dict whose only indicator is the unemployment
rate with a `NaN` YoY entry. -/
def lvNanYoy : String → Option Entry := fun x =>
  if x = "失業率" then some ⟨.num 4, .nan⟩ else none

/-- A 13-month aligned level series whose first level is zero (the
denominator of the YoY ratio at position 12) and whose latest level is
5. -/
def lvl13 : List PVal := .num 0 :: List.replicate 11 (.num 1) ++ [.num 5]

/-- A `latest_values` dict whose only indicator is the unemployment
rate, with its YoY entry taken from `lvl13` through the code path of
`run.py` (it is positive infinity, because of the zero denominator). -/
def lvInf : String → Option Entry := fun x =>
  if x = "失業率" then some ⟨.num 4, lastP (yoyList lvl13 false)⟩ else none

/-- A `latest_values` dict containing only the Michigan consumer
sentiment indicator. -/
def lvMichOnly : String → Option Entry := fun x =>
  if x = "ミシガン大学消費者態度指数" then some ⟨.num 50, .nan⟩ else none

/-- A thresholds dict with no keys at all. -/
def thMissing : String → Option ℚ := fun _ => none

/-- A fetch list in which the only indicator, the unemployment rate,
failed to fetch. -/
def itemsFail : List FetchItem := [⟨"失業率", none⟩]

/-- Three raw observations: two in month 0 (days 5 and 20) and one in
month 1. -/
def obsTwoW : List Obs := [⟨0, 5, some 1⟩, ⟨0, 20, some 2⟩, ⟨1, 3, some 7⟩]

/-- Two raw observations four months apart, leaving months 1, 2 and 3
with no observation. -/
def obsGapW : List Obs := [⟨0, 1, some 1⟩, ⟨4, 1, some 2⟩]

/- ===================== helper lemmas ===================== -/

theorem psub_nan_right (x : PVal) : psub x .nan = .nan := by cases x <;> rfl

theorem psub_nan_left (y : PVal) : psub .nan y = .nan := by cases y <;> rfl

theorem pdiv_nan_right (x : PVal) : pdiv x .nan = .nan := by cases x <;> rfl

theorem pmul_nan_left (y : PVal) : pmul .nan y = .nan := by cases y <;> rfl

theorem plt_nan_left (y : PVal) : plt .nan y = false := by cases y <;> rfl

theorem plt_nan_right (x : PVal) : plt x .nan = false := by cases x <;> rfl

theorem yoyList_getD (lvl : List PVal) (c : Bool) (t : ℕ) (h : t < lvl.length) :
    (yoyList lvl c).getD t .nan = yoyAt lvl c t := by
  unfold yoyList
  rw [List.getD_eq_getElem?_getD, List.getElem?_map, List.getElem?_range h]
  rfl

theorem yoyAt_of_lt_12 (lvl : List PVal) (c : Bool) (t : ℕ) (h : t < 12) :
    yoyAt lvl c t = .nan := by
  unfold yoyAt shiftAt
  rw [if_pos h]
  cases c
  · simp only [Bool.false_eq_true, if_false, pdiv_nan_right, psub_nan_left, pmul_nan_left]
  · simp only [if_true, psub_nan_right]

theorem yoyList_all_nan (lvl : List PVal) (c : Bool) (h12 : lvl.length = 12) :
    yoyList lvl c = List.replicate 12 .nan := by
  unfold yoyList
  rw [h12]
  apply List.eq_replicate_iff.mpr
  refine ⟨by simp, ?_⟩
  intro x hx
  rw [List.mem_map] at hx
  obtain ⟨t, ht, rfl⟩ := hx
  exact yoyAt_of_lt_12 lvl c t (List.mem_range.mp ht)

theorem runChecks_perm (lv : String → Option Entry) (th : String → Option ℚ)
    {cs cs' : List Check} (h : cs.Perm cs') :
    runChecks lv th cs = runChecks lv th cs' := by
  induction h with
  | nil => rfl
  | cons c _ ih => simp only [runChecks, ih]
  | swap a b l =>
    simp only [runChecks]
    cases hA : evalCheck lv th a <;> cases hB : evalCheck lv th b
    · rfl
    · rfl
    · rename_i eb vb
      cases vb
      rfl
    · rename_i va vb
      cases va with
      | mk sa ta =>
        cases vb with
        | mk sb tb =>
          cases hL : runChecks lv th l
          · rfl
          · rename_i v
            cases v with
            | mk sl tl =>
              simp only [Except.ok.injEq, Prod.mk.injEq]
              omega
  | trans _ _ ih1 ih2 => exact ih1.trans ih2

theorem evalCheck_without_label (lv : String → Option Entry) (th : String → Option ℚ)
    (L : String) (c : Check) (hc : c.label ≠ L) :
    evalCheck (fun x => if x = L then none else lv x) th c = evalCheck lv th c := by
  have hlv : (fun x => if x = L then none else lv x) c.label = lv c.label := if_neg hc
  unfold evalCheck
  rw [hlv]

theorem runChecks_without_label (lv : String → Option Entry) (th : String → Option ℚ)
    (L : String) (e : Entry) (hL : lv L = some e) :
    ∀ (cs : List Check) (s t : ℕ), runChecks lv th cs = .ok (s, t) →
    ∃ s' t', runChecks (fun x => if x = L then none else lv x) th cs = .ok (s', t') ∧
      s' ≤ s ∧ t' + (cs.filter (fun c => c.label == L)).length = t := by
  intro cs
  induction cs with
  | nil =>
    intro s t h
    refine ⟨0, 0, rfl, ?_, ?_⟩ <;> cases h <;> simp
  | cons c cs ih =>
    intro s t h
    unfold runChecks at h
    cases hec : evalCheck lv th c with
    | error err => rw [hec] at h; cases h
    | ok p =>
      obtain ⟨sc, tc⟩ := p
      rw [hec] at h
      cases hrest : runChecks lv th cs with
      | error err => rw [hrest] at h; cases h
      | ok q =>
        obtain ⟨s1, t1⟩ := q
        rw [hrest] at h
        have hst : sc + s1 = s ∧ tc + t1 = t := by
          cases h; exact ⟨rfl, rfl⟩
        obtain ⟨s1', t1', hrun', hs1, ht1⟩ := ih s1 t1 hrest
        by_cases hcl : c.label = L
        · -- the removed indicator: its rule is skipped in the primed run
          have htc : tc = 1 := by
            unfold evalCheck at hec
            rw [hcl, hL] at hec
            cases hth : th c.thKey with
            | none => rw [hth] at hec; cases hec
            | some b => rw [hth] at hec; cases hec; rfl
          refine ⟨s1', t1', ?_, ?_, ?_⟩
          · unfold runChecks
            have hskip : evalCheck (fun x => if x = L then none else lv x) th c = .ok (0, 0) := by
              have hlv : (fun x => if x = L then none else lv x) c.label = none := by
                rw [hcl]
                simp
              unfold evalCheck
              rw [hlv]
            rw [hskip, hrun']
            simp
          · omega
          · have hbeq : (c.label == L) = true := by simp [hcl]
            have : (List.filter (fun c => c.label == L) (c :: cs)).length =
                (List.filter (fun c => c.label == L) cs).length + 1 := by
              simp [List.filter_cons, hbeq]
            omega
        · refine ⟨sc + s1', tc + t1', ?_, ?_, ?_⟩
          · unfold runChecks
            rw [evalCheck_without_label lv th L c hcl, hec, hrun']
          · omega
          · have hbeq : (c.label == L) = false := by simp [hcl]
            have : (List.filter (fun c => c.label == L) (c :: cs)).length =
                (List.filter (fun c => c.label == L) cs).length := by
              simp [List.filter_cons, hbeq]
            omega

theorem get_fred_data_absent (L : String) :
    ∀ (items : List FetchItem) (acc : String → Option Entry),
      (∀ it ∈ items, it.label = L → it.result = none) → acc L = none →
      (items.foldl
        (fun acc it =>
          match it.result with
          | none => acc
          | some [] => acc
          | some obs => fun x => if x = it.label then some (mkEntry it.label obs) else acc x)
        acc) L = none := by
  intro items
  induction items with
  | nil => intro acc _ hacc; exact hacc
  | cons it rest ih =>
    intro acc hits hacc
    simp only [List.foldl]
    apply ih
    · intro x hx
      exact hits x (List.mem_cons_of_mem it hx)
    · cases hres : it.result with
      | none => exact hacc
      | some obs =>
        cases obs with
        | nil => exact hacc
        | cons o os =>
          have hl : it.label ≠ L := by
            intro hl
            have hnone := hits it (List.mem_cons_self it rest) hl
            rw [hres] at hnone
            simp at hnone
          show (if L = it.label then some (mkEntry it.label (o :: os)) else acc L) = none
          rw [if_neg (Ne.symm hl)]
          exact hacc

theorem lastValid_foldl_filter (m : ℕ) :
    ∀ (obs : List Obs) (init : Option ℚ),
      obs.foldl
        (fun acc o =>
          if o.month = m then
            match o.value with
            | some v => some v
            | none => acc
          else acc) init =
      (obs.filter (fun o => o.month == m)).foldl
        (fun acc o =>
          if o.month = m then
            match o.value with
            | some v => some v
            | none => acc
          else acc) init := by
  intro obs
  induction obs with
  | nil => intro init; rfl
  | cons o os ih =>
    intro init
    by_cases h : o.month = m
    · have hb : (o.month == m) = true := by simp [h]
      simp only [List.filter_cons, hb, if_true, List.foldl]
      exact ih _
    · have hb : (o.month == m) = false := by simp [h]
      simp only [List.filter_cons, hb, if_false, List.foldl, Bool.false_eq_true]
      rw [if_neg h]
      exact ih init

theorem lastValidInMonth_filter (obs : List Obs) (m : ℕ) :
    lastValidInMonth obs m = lastValidInMonth (obs.filter (fun o => o.month == m)) m := by
  unfold lastValidInMonth
  rw [lastValid_foldl_filter m obs none]

theorem lastValidInMonth_pair (obs : List Obs) (m : ℕ) (a b : Obs) (va vb : ℚ)
    (hfil : obs.filter (fun o => o.month == m) = [a, b])
    (hav : a.value = some va) (hbv : b.value = some vb) :
    lastValidInMonth obs m = some vb := by
  have hb' : b ∈ obs.filter (fun o => o.month == m) := by rw [hfil]; simp
  have hbm : b.month = m := by simpa using (List.mem_filter.mp hb').2
  have ha' : a ∈ obs.filter (fun o => o.month == m) := by rw [hfil]; simp
  have ham : a.month = m := by simpa using (List.mem_filter.mp ha').2
  rw [lastValidInMonth_filter obs m, hfil]
  unfold lastValidInMonth
  simp only [List.foldl, if_pos ham, if_pos hbm, hav, hbv]

theorem resampled_getD (obs : List Obs) (m0 m1 m : ℕ) (hm0 : m0 ≤ m) (hm1 : m ≤ m1) :
    (resampled obs m0 m1).getD (m - m0) none = lastValidInMonth obs m := by
  unfold resampled monthsGrid
  rw [List.getD_eq_getElem?_getD, List.getElem?_map]
  have hlen : m - m0 < (List.range' m0 (m1 + 1 - m0)).length := by simp; omega
  rw [List.getElem?_eq_getElem hlen]
  rw [List.getElem_range'_1]
  have hm : m0 + (m - m0) = m := by omega
  rw [hm]
  rfl

theorem ffillFrom_getD_some :
    ∀ (l : List (Option ℚ)) (prev : Option ℚ) (i : ℕ) (v : ℚ),
      l.getD i none = some v → (ffillFrom prev l).getD i none = some v := by
  intro l
  induction l with
  | nil => intro prev i v h; simp [List.getD] at h
  | cons x xs ih =>
    intro prev i v h
    cases i with
    | zero =>
      rw [List.getD_cons_zero] at h
      subst h
      rfl
    | succ n =>
      rw [List.getD_cons_succ] at h
      cases x with
      | some w =>
        show (ffillFrom (some w) xs).getD n none = some v
        exact ih _ n v h
      | none =>
        show (ffillFrom prev xs).getD n none = some v
        exact ih _ n v h

theorem ffillFrom_length :
    ∀ (prev : Option ℚ) (l : List (Option ℚ)), (ffillFrom prev l).length = l.length := by
  intro prev l
  induction l generalizing prev with
  | nil => rfl
  | cons x xs ih =>
    cases x with
    | some v => simp [ffillFrom, ih]
    | none => simp [ffillFrom, ih]

theorem ffillFrom_some_ne_none :
    ∀ (l : List (Option ℚ)) (v : ℚ) (i : ℕ), i < l.length →
      (ffillFrom (some v) l).getD i none ≠ none := by
  intro l
  induction l with
  | nil => intro v i h; simp at h
  | cons x xs ih =>
    intro v i h
    cases i with
    | zero =>
      cases x with
      | some w => simp [ffillFrom]
      | none => simp [ffillFrom]
    | succ n =>
      have hn : n < xs.length := by simpa using h
      cases x with
      | some w =>
        show (ffillFrom (some w) xs).getD n none ≠ none
        exact ih w n hn
      | none =>
        show (ffillFrom (some v) xs).getD n none ≠ none
        exact ih v n hn

theorem ffillFrom_none_iff :
    ∀ (l : List (Option ℚ)) (i : ℕ), i < l.length →
      ((ffillFrom none l).getD i none = none ↔
        ((l.take (i + 1)).all Option.isNone) = true) := by
  intro l
  induction l with
  | nil => intro i h; simp at h
  | cons x xs ih =>
    intro i h
    cases i with
    | zero =>
      cases x with
      | some v => simp [ffillFrom]
      | none => simp [ffillFrom]
    | succ n =>
      have hn : n < xs.length := by simpa using h
      cases x with
      | some v =>
        constructor
        · intro hcontra
          exact absurd hcontra (ffillFrom_some_ne_none xs v n hn)
        · intro hall
          simp [Option.isNone] at hall
      | none =>
        have hiff := ih n hn
        constructor
        · intro h1
          have h2 := hiff.mp h1
          simpa using h2
        · intro h1
          apply hiff.mpr
          simpa using h1

/- ===================== claim theorems ===================== -/

/-- C1 (corrected): the composite percentage is NOT the rounding of
`100 * triggeredCount / evaluableTotal`. On a run in which all six
rules are evaluable and exactly one triggers, the code returns 16
(truncation of 100/6), while rounding gives 17. -/
theorem percentage_truncates_not_rounds_cex :
    calculate_recession_probability lvSix thAll = .ok (16, 1, 6) ∧
    round ((100 * 1 : ℚ) / 6) = 17 :=
  ⟨by decide, by norm_num [round_eq]⟩

/-- C1 (amended): for every latest-values and thresholds input on which
the rule loop succeeds with `(signals, total)`, the composite
percentage returned by `calculate_recession_probability` equals the
FLOOR of `100 * signals / total` (Python `int` truncation) when
`total > 0`, and equals 0 when `total = 0`. -/
theorem percentage_is_floor (lv : String → Option Entry) (th : String → Option ℚ)
    (s t : ℕ) (h : runChecks lv th checks = .ok (s, t)) :
    calculate_recession_probability lv th =
      .ok (if 0 < t then ⌊(100 * s : ℚ) / t⌋₊ else 0, s, t) := by
  unfold calculate_recession_probability calcOnList
  rw [h]
  unfold scoreOf
  simp only [Except.map]
  congr 1
  have hfl : ⌊(100 * s : ℚ) / t⌋₊ = 100 * s / t := by
    rw [show ((100 * s : ℚ)) = ((100 * s : ℕ) : ℚ) by push_cast; ring]
    exact Nat.floor_div_eq_div (100 * s) t
  rcases Nat.eq_zero_or_pos t with h0 | hpos
  · simp [h0]
  · simp [hpos, hfl, Nat.mul_comm]

/-- Witness for C1: on the six-indicator run with one triggered rule,
the theorem instantiates to the concrete floor value. -/
theorem percentage_is_floor_witness :
    calculate_recession_probability lvSix thAll =
      .ok (if 0 < 6 then ⌊(100 * 1 : ℚ) / 6⌋₊ else 0, 1, 6) :=
  percentage_is_floor lvSix thAll 1 6 (by decide)

/-- C2 (confirmed): for an aligned series and a position `t` with at
least 13 aligned months behind it (`12 ≤ t < length`), if the level at
`t` is the finite value `a` and the level at `t - 12` is the finite
nonzero value `b`, the change series of `run.py` satisfies
`change[t] = (a / b - 1) * 100` for the ratio transform (label without
the word Curve) and `change[t] = a - b` for the difference transform
(label with the word Curve). -/
theorem yoy_change_formula (lvl : List PVal) (t : ℕ) (a b : ℚ)
    (ht : 12 ≤ t) (htl : t < lvl.length)
    (ha : lvl.getD t .nan = .num a) (hb : lvl.getD (t - 12) .nan = .num b)
    (hb0 : b ≠ 0) :
    (yoyList lvl false).getD t .nan = .num ((a / b - 1) * 100) ∧
    (yoyList lvl true).getD t .nan = .num (a - b) := by
  have hs : shiftAt lvl t = .num b := by
    unfold shiftAt
    rw [if_neg (by omega), hb]
  constructor
  · rw [yoyList_getD lvl false t htl]
    unfold yoyAt
    rw [if_neg (by simp), ha, hs]
    simp only [pdiv, if_neg hb0, psub, pmul]
  · rw [yoyList_getD lvl true t htl]
    unfold yoyAt
    rw [if_pos rfl, ha, hs]
    simp only [psub]

/-- Witness for C2: the 13-month series `lvlW` gives a concrete ratio
change of `(3 / 2 - 1) * 100` and a concrete difference change of
`3 - 2` at position 12. -/
theorem yoy_change_formula_witness :
    (yoyList lvlW false).getD 12 .nan = .num ((3 / 2 - 1) * 100) ∧
    (yoyList lvlW true).getD 12 .nan = .num (3 - 2) :=
  yoy_change_formula lvlW 12 3 2 (by decide) (by decide) (by decide) (by decide)
    (by norm_num)

/-- C3 (corrected): with exactly 12 aligned months the change window is
NOT empty and the rule keyed on the change metric is NOT excluded from
`evaluableTotal`. Through the code path of `run.py`, the 12-month
series `lvl12` yields a nonempty change window (12 `NaN` entries) and
`calculate_recession_probability` counts the unemployment YoY rule in
`total` (returning total 1, not 0), without crashing and without
triggering. -/
theorem twelve_months_rule_counted_cex :
    lvl12.length = 12 ∧ yoyList lvl12 false ≠ [] ∧
    calculate_recession_probability lvTwelve thAll = .ok (0, 0, 1) :=
  ⟨by decide, by decide, by decide⟩

/-- C3 (amended): for every aligned series of exactly 12 months, the
change series consists of 12 `NaN` values (not an empty window and not
a crash), the latest change is `NaN`, and a rule keyed on the change
metric of such an indicator is still counted into `evaluableTotal`
(contributing 1 to total) but can never trigger, because comparisons
with `NaN` are false. -/
theorem twelve_months_change_nan_not_skipped
    (lvl : List PVal) (c : Bool) (h12 : lvl.length = 12)
    (lv : String → Option Entry) (th : String → Option ℚ) (ch : Check) (e : Entry) (b : ℚ)
    (hlv : lv ch.label = some e) (hy : e.yoy = .nan) (hk : ch.key = .yoy)
    (hth : th ch.thKey = some b) :
    yoyList lvl c = List.replicate 12 .nan ∧
    lastP (yoyList lvl c) = .nan ∧
    evalCheck lv th ch = .ok (0, 1) := by
  refine ⟨yoyList_all_nan lvl c h12, ?_, ?_⟩
  · rw [yoyList_all_nan lvl c h12]; rfl
  · unfold evalCheck
    rw [hlv, hth]
    cases hop : ch.op <;>
      simp [hop, getMetric, hy, hk, plt_nan_left, plt_nan_right, pgt]

/-- Witness for C3: the 12-month series `lvl12` and the unemployment
YoY rule evaluated on a `NaN` entry. -/
theorem twelve_months_change_nan_not_skipped_witness :
    yoyList lvl12 false = List.replicate 12 .nan ∧
    lastP (yoyList lvl12 false) = .nan ∧
    evalCheck lvNanYoy thAll ⟨"失業率", .yoy, "unrate_yoy_max", .gt⟩ = .ok (0, 1) :=
  twelve_months_change_nan_not_skipped lvl12 false (by decide) lvNanYoy thAll
    ⟨"失業率", .yoy, "unrate_yoy_max", .gt⟩ ⟨.num 4, .nan⟩ 5 rfl rfl rfl rfl

/-- C4 (corrected): a zero denominator in the ratio transform does not
raise, but the change value is NOT treated as undefined, and a rule CAN
trigger on it. Through the code path of `run.py`, the series `lvl13`
(level 0 twelve months before a level of 5) yields a change of positive
infinity, and the greater-than rule on the unemployment indicator
triggers on it, giving signals 1 out of total 1. -/
theorem zero_denominator_triggers_cex :
    (yoyList lvl13 false).getD 12 .nan = .pinf ∧
    calculate_recession_probability lvInf thAll = .ok (100, 1, 1) :=
  ⟨by decide, by decide⟩

/-- C4 (amended): for every aligned series whose level 12 months
earlier is zero at a position `t` with finite level `a`, the ratio
transform evaluates (it does not raise) to positive infinity when
`a > 0`, negative infinity when `a < 0`, and `NaN` only when `a = 0`;
a greater-than rule triggers on positive infinity and a less-than rule
triggers on negative infinity, while no comparison on `NaN` triggers. -/
theorem zero_denominator_yields_inf (lvl : List PVal) (t : ℕ) (a b : ℚ)
    (ht : 12 ≤ t) (htl : t < lvl.length)
    (ha : lvl.getD t .nan = .num a) (hb : lvl.getD (t - 12) .nan = .num 0) :
    (yoyList lvl false).getD t .nan =
      (if 0 < a then .pinf else if a < 0 then .ninf else .nan) ∧
    pgt .pinf (.num b) = true ∧ plt .pinf (.num b) = false ∧
    plt .ninf (.num b) = true ∧ pgt .ninf (.num b) = false ∧
    pgt .nan (.num b) = false ∧ plt .nan (.num b) = false := by
  have hs : shiftAt lvl t = .num 0 := by
    unfold shiftAt
    rw [if_neg (by omega), hb]
  refine ⟨?_, rfl, rfl, rfl, rfl, rfl, rfl⟩
  rw [yoyList_getD lvl false t htl]
  unfold yoyAt
  rw [if_neg (by simp), ha, hs]
  have hdiv : pdiv (.num a) (.num 0) =
      (if 0 < a then .pinf else if a < 0 then .ninf else .nan) := by
    simp [pdiv]
  rw [hdiv]
  split_ifs with h1 h2
  · simp [psub, pmul]
  · simp [psub, pmul]
  · simp [psub_nan_left, pmul_nan_left]

/-- Witness for C4: the series `lvl13` at position 12 with numerator 5
over denominator 0, against an arbitrary bound of 7. -/
theorem zero_denominator_yields_inf_witness :
    (yoyList lvl13 false).getD 12 .nan =
      (if 0 < (5 : ℚ) then .pinf else if (5 : ℚ) < 0 then .ninf else .nan) ∧
    pgt .pinf (.num 7) = true ∧ plt .pinf (.num 7) = false ∧
    plt .ninf (.num 7) = true ∧ pgt .ninf (.num 7) = false ∧
    pgt .nan (.num 7) = false ∧ plt .nan (.num 7) = false :=
  zero_denominator_yields_inf lvl13 12 5 7 (by decide) (by decide) (by decide) (by decide)

/-- C5 (confirmed): when the fetch of one indicator fails, that
indicator is absent from the `latest_values` built by `get_fred_data`
and the run continues; relative to a run in which the indicator was
present, `evaluableTotal` drops by exactly the number of rules
referencing that indicator (the filter length below), the triggered
count does not increase, and the evaluation of every rule on a
different indicator is unchanged. -/
theorem fetch_failure_excludes_indicator (lv : String → Option Entry)
    (th : String → Option ℚ) (L : String) (e : Entry) (c : Check)
    (items : List FetchItem) (s t : ℕ)
    (hL : lv L = some e) (hc : c.label ≠ L)
    (hrun : runChecks lv th checks = .ok (s, t))
    (hitems : ∀ it ∈ items, it.label = L → it.result = none) :
    get_fred_data items L = none ∧
    evalCheck (fun x => if x = L then none else lv x) th c = evalCheck lv th c ∧
    runChecks (fun x => if x = L then none else lv x) th checks =
      .ok (okSignals (runChecks (fun x => if x = L then none else lv x) th checks),
           okTotal (runChecks (fun x => if x = L then none else lv x) th checks)) ∧
    okSignals (runChecks (fun x => if x = L then none else lv x) th checks) ≤ s ∧
    okTotal (runChecks (fun x => if x = L then none else lv x) th checks) +
      (checks.filter (fun c' => c'.label == L)).length = t := by
  obtain ⟨s', t', hrun', hs', ht'⟩ := runChecks_without_label lv th L e hL checks s t hrun
  refine ⟨?_, evalCheck_without_label lv th L c hc, ?_, ?_, ?_⟩
  · exact get_fred_data_absent L items (fun _ => none) hitems rfl
  · rw [hrun']; rfl
  · rw [hrun']; exact hs'
  · rw [hrun']; exact ht'

/-- Witness for C5: the unemployment indicator fails to fetch; the NFP
rule is unchanged, and the totals drop from 6 by the one rule that
references unemployment. -/
theorem fetch_failure_excludes_indicator_witness :
    get_fred_data itemsFail "失業率" = none ∧
    evalCheck (fun x => if x = "失業率" then none else lvSix x) thAll
      ⟨"非農業部門雇用者数 (NFP)", .yoy, "nfp_yoy_min", .lt⟩ =
      evalCheck lvSix thAll ⟨"非農業部門雇用者数 (NFP)", .yoy, "nfp_yoy_min", .lt⟩ ∧
    runChecks (fun x => if x = "失業率" then none else lvSix x) thAll checks =
      .ok (okSignals (runChecks (fun x => if x = "失業率" then none else lvSix x) thAll checks),
           okTotal (runChecks (fun x => if x = "失業率" then none else lvSix x) thAll checks)) ∧
    okSignals (runChecks (fun x => if x = "失業率" then none else lvSix x) thAll checks) ≤ 1 ∧
    okTotal (runChecks (fun x => if x = "失業率" then none else lvSix x) thAll checks) +
      (checks.filter (fun c' => c'.label == "失業率")).length = 6 :=
  fetch_failure_excludes_indicator lvSix thAll "失業率" ⟨.num 4, .num 0⟩
    ⟨"非農業部門雇用者数 (NFP)", .yoy, "nfp_yoy_min", .lt⟩ itemsFail 1 6
    rfl (by decide) (by decide) (by decide)

/-- C6 (confirmed, modelled from the spec): the severity tier is
critical for a percentage of at least 80, warning between 50 and 79,
observe below 50; in particular 79 maps to warning, 80 to critical, 49
to observe and 50 to warning. The mapping is a pure function of the
percentage. -/
theorem tier_mapping_boundaries (p : ℕ) :
    tierOf p = (if 80 ≤ p then .critical else if 50 ≤ p then .warning else .observe) ∧
    tierOf 79 = .warning ∧ tierOf 80 = .critical ∧
    tierOf 49 = .observe ∧ tierOf 50 = .warning :=
  ⟨rfl, rfl, rfl, rfl, rfl⟩

/-- C7 (confirmed): when exactly two raw observations fall in calendar
month `m` (the filtered list is `[a, b]`, with `b` the chronologically
later one, as FRED returns dates in ascending order) and both carry
values, the aligned series has exactly one slot for month `m` (the grid
counts it once and alignment preserves length) and that slot holds the
value of `b`. -/
theorem same_month_last_observation_wins (obs : List Obs) (a b : Obs)
    (m m0 m1 : ℕ) (va vb : ℚ)
    (hfil : obs.filter (fun o => o.month == m) = [a, b])
    (hav : a.value = some va) (hbv : b.value = some vb)
    (hday : a.day ≤ b.day)
    (hm0 : m0 ≤ m) (hm1 : m ≤ m1) :
    (alignedSeries obs m0 m1).getD (m - m0) none = some vb ∧
    (monthsGrid m0 m1).count m = 1 ∧
    (alignedSeries obs m0 m1).length = (monthsGrid m0 m1).length := by
  refine ⟨?_, ?_, ?_⟩
  · apply ffillFrom_getD_some
    rw [resampled_getD obs m0 m1 m hm0 hm1]
    exact lastValidInMonth_pair obs m a b va vb hfil hav hbv
  · unfold monthsGrid
    apply List.count_eq_one_of_mem
    · exact List.nodup_range' m0 (m1 + 1 - m0)
    · exact List.mem_range'_1.mpr ⟨hm0, by omega⟩
  · unfold alignedSeries
    rw [ffillFrom_length]
    unfold resampled
    simp

/-- Witness for C7: months 0 and 1, with observations on days 5 and 20
of month 0; the aligned slot for month 0 holds the value 2 of the day
20 observation. -/
theorem same_month_last_observation_wins_witness :
    (alignedSeries obsTwoW 0 1).getD (0 - 0) none = some 2 ∧
    (monthsGrid 0 1).count 0 = 1 ∧
    (alignedSeries obsTwoW 0 1).length = (monthsGrid 0 1).length :=
  same_month_last_observation_wins obsTwoW ⟨0, 5, some 1⟩ ⟨0, 20, some 2⟩ 0 0 1 1 2
    (by decide) rfl rfl (by decide) (by decide) (by decide)

/-- C8 (corrected): alignment does NOT stop forward-filling at a
bounded gap. The series `obsGapW` has observations only in months 0
and 4; months 1, 2 and 3 have no observation (the resampled slot of
month 3 is `none`), yet the aligned series fills all of them from
month 0 — month 3, three months past the last observation and beyond
the 1-to-2-month bound the spec describes, is `some 1`, not left
unavailable. -/
theorem unbounded_ffill_cex :
    alignedSeries obsGapW 0 4 = [some 1, some 1, some 1, some 1, some 2] ∧
    (resampled obsGapW 0 4).getD 3 none = none ∧
    (alignedSeries obsGapW 0 4).getD 3 none = some 1 :=
  ⟨by decide, by decide, by decide⟩

/-- C8 (amended): alignment forward-fills EVERY gap, with no bound: a
month of the aligned series is unavailable if and only if no month up
to it has a valid observation (i.e. every resampled slot up to and
including it is empty). -/
theorem ffill_fills_every_gap (obs : List Obs) (m0 m1 i : ℕ)
    (hi : i < (monthsGrid m0 m1).length) :
    ((alignedSeries obs m0 m1).getD i none = none ↔
      (((resampled obs m0 m1).take (i + 1)).all Option.isNone) = true) := by
  unfold alignedSeries
  apply ffillFrom_none_iff
  unfold resampled
  simpa using hi

/-- Witness for C8: in the gapped series, month 3 of the aligned
series is available precisely because an earlier month has an
observation. -/
theorem ffill_fills_every_gap_witness :
    (alignedSeries obsGapW 0 4).getD 3 none = none ↔
      (((resampled obsGapW 0 4).take (3 + 1)).all Option.isNone) = true :=
  ffill_fills_every_gap obsGapW 0 4 3 (by decide)

/-- C9 (confirmed): signal evaluation is order-independent: for every
permutation of the rule table, the loop of
`calculate_recession_probability` produces the identical triple of
percentage, triggered count and evaluable total (including the
identical error outcome when a threshold key is missing). -/
theorem rule_order_irrelevant (lv : String → Option Entry) (th : String → Option ℚ)
    (cs : List Check) (h : checks.Perm cs) :
    calcOnList lv th cs = calculate_recession_probability lv th := by
  unfold calculate_recession_probability calcOnList
  rw [runChecks_perm lv th h]

/-- Witness for C9: evaluating the reversed rule table gives the same
result as the original order. -/
theorem rule_order_irrelevant_witness :
    calcOnList lvSix thAll checks.reverse = calculate_recession_probability lvSix thAll :=
  rule_order_irrelevant lvSix thAll checks.reverse (List.reverse_perm checks).symm

/-- C10 (confirmed): when the indicator of a rule is present in
`latest_values` but its threshold key is absent from the thresholds
dict, `calculate_recession_probability` raises a key-lookup error
(modelled as `Except.error ()`), aborting the evaluation instead of
skipping the rule: concretely, with only the Michigan indicator present
and an empty thresholds dict. -/
theorem missing_threshold_key_raises :
    lvMichOnly "ミシガン大学消費者態度指数" = some ⟨.num 50, .nan⟩ ∧
    thMissing "michigan_val_min" = none ∧
    calculate_recession_probability lvMichOnly thMissing = .error () :=
  ⟨rfl, rfl, by decide⟩

end EconPulse
